import Mathlib

/-!
AdaptiveCpp: `sycl::exception` and the HIP completion event.

A shallow embedding of

* `include/hipSYCL/sycl/exception.hpp`: the `errc` taxonomy, the `sycl`
  error category, `make_error_code` and the class `exception`;
* `include/hipSYCL/runtime/hip/hip_event.hpp`: `hip_unique_event` and the
  class `hip_node_event`.

Conventions of the embedding.

* `int` and `unsigned int` are 32 bits wide; a value of either type is an
  `Int`/`Nat` and every conversion reduces modulo `2^32` explicitly.
* A `std::string` is a `String` (it may hold the character NUL).  A
  `const char*` is represented by the characters stored from the pointer on;
  the C string it denotes ends before the first NUL (`c_string`).
* A `std::shared_ptr<T>` is an `Option T`, `none` being `nullptr`.
* A `std::error_category` object is compared by identity, and its virtual
  member functions are dispatched on the object.
-/

namespace hipsycl

/-! ## Standard-library types used by `exception.hpp` -/

/-- The character NUL, which terminates a C string. -/
def NUL : Char := Char.ofNat 0

/-- The C string denoted by a `const char*` whose pointee holds the characters
`s`: everything before the first NUL. -/
def c_string (s : String) : String :=
  String.mk (s.data.takeWhile (fun c => c != NUL))

/-- Conversion `static_cast<int>(u)` of an `unsigned int`: the value modulo
`2^32`, read as a two's complement 32-bit integer. -/
def static_cast_int (u : Nat) : Int :=
  if u % 2 ^ 32 < 2 ^ 31 then ((u % 2 ^ 32 : Nat) : Int)
  else ((u % 2 ^ 32 : Nat) : Int) - 2 ^ 32

/-- A `std::error_category` object.  `_sycl_category` is the function-local
static object of type `detail::sycl_category` that `sycl_category()` returns,
the only category object `exception.hpp` defines.  `foreign` is a category
object defined elsewhere (`std::system_category()`, a user category, ...),
given by its address and its two virtual member functions. -/
inductive error_category where
  | _sycl_category
  | foreign (addr : Nat) (name : String) (message : Int → String)

/-- Comparison `operator==` of `std::error_category`: identity of the objects. -/
def error_category.same : error_category → error_category → Bool
  | ._sycl_category, ._sycl_category => true
  | .foreign a _ _, .foreign b _ _ => a == b
  | _, _ => false

/-- A `std::error_code`: an `int` value and a reference to a category. -/
structure error_code where
  value : Int
  category : error_category

/-- Comparison `operator==` of `std::error_code`: same category object and
same value. -/
def error_code.op_eq (a b : error_code) : Bool :=
  a.category.same b.category && a.value == b.value

namespace sycl

/-! ## `exception.hpp` -/

/-- Virtual `name()` of a category; for `detail::sycl_category` the override
`return "sycl";`. -/
def error_category_name : error_category → String
  | ._sycl_category => "sycl"
  | .foreign _ n _ => n

/-- Virtual `message(int)` of a category; for `detail::sycl_category` the
override `return "hipSYCL Error";`. -/
def error_category_message : error_category → Int → String
  | ._sycl_category, _ => "hipSYCL Error"
  | .foreign _ _ m, n => m n

/-- The scoped enumeration `errc : unsigned int`. -/
inductive errc where
  | success
  | runtime
  | kernel
  | accessor
  | nd_range
  | event
  | kernel_argument
  | build
  | invalid
  | memory_allocation
  | platform
  | profiling
  | feature_not_supported
  | kernel_not_supported
  | backend_mismatch
  deriving DecidableEq, Repr

/-- The `unsigned int` value of an enumerator: `success = 0` is explicit, every
later enumerator has the value of its predecessor plus one. -/
def errc.underlying : errc → Nat
  | .success => 0
  | .runtime => 1
  | .kernel => 2
  | .accessor => 3
  | .nd_range => 4
  | .event => 5
  | .kernel_argument => 6
  | .build => 7
  | .invalid => 8
  | .memory_allocation => 9
  | .platform => 10
  | .profiling => 11
  | .feature_not_supported => 12
  | .kernel_not_supported => 13
  | .backend_mismatch => 14

/-- The function `sycl_category()`: a reference to the static
`_sycl_category`. -/
def sycl_category : error_category := error_category._sycl_category

/-- The function `make_error_code(errc e)`:
`return {static_cast<int>(e), sycl_category()};`. -/
def make_error_code (e : errc) : error_code :=
  { value := static_cast_int e.underlying, category := sycl_category }

/-- The fifteen codes of the taxonomy, in the order in which the specification
lists them. -/
def taxonomy : List errc :=
  [.success, .runtime, .kernel, .accessor, .nd_range, .event, .kernel_argument, .build,
   .invalid, .memory_allocation, .platform, .profiling, .feature_not_supported,
   .kernel_not_supported, .backend_mismatch]

/-- The class `exception`; `context` is the class declared but not defined in
`exception.hpp`. -/
structure exception (context : Type) where
  _context : Option context
  error_code : hipsycl.error_code
  _msg : String

namespace exception

variable {context : Type}

/-- Constructor `exception() = default;`.  Every member is default-initialised;
a default `std::error_code` is `{0, std::system_category()}`, the latter being
the argument `system_category`. -/
def default_init (system_category : error_category) : exception context :=
  { _context := none, error_code := { value := 0, category := system_category }, _msg := "" }

/-- Constructor `exception(std::error_code ec, const std::string& what_arg)`. -/
def of_code_string (ec : hipsycl.error_code) (what_arg : String) : exception context :=
  { _context := none, error_code := ec, _msg := what_arg }

/-- Constructor `exception(std::error_code ec, const char* what_arg)`: `_msg` is
built from the C string at `what_arg`. -/
def of_code_chars (ec : hipsycl.error_code) (what_arg : String) : exception context :=
  { _context := none, error_code := ec, _msg := c_string what_arg }

/-- Constructor `exception(std::error_code ec)`: `_msg` is default-initialised. -/
def of_code (ec : hipsycl.error_code) : exception context :=
  { _context := none, error_code := ec, _msg := "" }

/-- Constructor
`exception(int ev, const std::error_category& ecat, const std::string& what_arg)`. -/
def of_value_string (ev : Int) (ecat : error_category) (what_arg : String) :
    exception context :=
  { _context := none, error_code := { value := ev, category := ecat }, _msg := what_arg }

/-- Constructor
`exception(int ev, const std::error_category& ecat, const char* what_arg)`. -/
def of_value_chars (ev : Int) (ecat : error_category) (what_arg : String) :
    exception context :=
  { _context := none, error_code := { value := ev, category := ecat },
    _msg := c_string what_arg }

/-- Constructor `exception(int ev, const std::error_category& ecat)`. -/
def of_value (ev : Int) (ecat : error_category) : exception context :=
  { _context := none, error_code := { value := ev, category := ecat }, _msg := "" }

/-- Member `code()`: `return error_code;`. -/
def code (e : exception context) : hipsycl.error_code := e.error_code

/-- Member `category()`: `return error_code.category();`. -/
def category (e : exception context) : error_category := e.error_code.category

/-- Member `what()`: `return _msg.c_str();`, a `const char*` into the buffer of
`_msg`; the value is the C string found there. -/
def what (e : exception context) : String := c_string e._msg

/-- Member `has_context()`: `return (_context != nullptr);`. -/
def has_context (e : exception context) : Bool := e._context.isSome

end exception

end sycl

namespace rt

/-! ## `hip_event.hpp`

The header declares the types and the member functions; the bodies live in
`hip_event.cpp` and the HIP runtime.  What the header fixes is embedded from
it: the members of `hip_node_event`, the ownership type `hip_unique_event`,
which member functions are `const`, and the implicitly defined destructor.
The bodies are modelled from the specification, each marked as such. -/

/-- The handle type `hipEvent_t`, a pointer `ihipEvent_t*`: an address, `0`
being `nullptr`. -/
abbrev hipEvent_t := Nat

/-- The completion state of a recorded token, the two states an event can be
in: Pending and Complete. -/
inductive event_status where
  | Pending
  | Complete
  deriving DecidableEq, Repr

/-- The backend as seen by this layer: the completion status of every recorded
token, the failures accumulated by the async error collaborator in detection
order, and the log of the tokens handed to the release primitive (the
backend-resource counter). -/
structure backend (context : Type) where
  status : hipEvent_t → event_status
  reported : List (sycl.exception context)
  released : List hipEvent_t

/-- What a backend call reports besides the completion status: success, or
a backend error with its raw diagnostic text when there is one. -/
inductive call_outcome where
  | ok
  | failed (diagnostic : Option String)

/-- Modelled from the spec: the body of `hip_event_deleter::operator()`, the
backend's release primitive; every invocation is counted in `released`. -/
def hip_event_deleter {context : Type} (evt : hipEvent_t) (b : backend context) :
    backend context :=
  { b with released := b.released ++ [evt] }

/-- The type `hip_unique_event = std::unique_ptr<ihipEvent_t, hip_event_deleter>`:
the stored pointer. -/
structure hip_unique_event where
  ptr : hipEvent_t
  deriving DecidableEq, Repr

/-- Move construction of a `std::unique_ptr`: the new object takes the pointer,
the source is left holding `nullptr`.  Returns (new object, moved-from source). -/
def hip_unique_event.move (u : hip_unique_event) : hip_unique_event × hip_unique_event :=
  ({ ptr := u.ptr }, { ptr := 0 })

/-- Destructor of `std::unique_ptr<ihipEvent_t, hip_event_deleter>`:
`if (get() != nullptr) get_deleter()(get());`. -/
def hip_unique_event.destroy {context : Type} (u : hip_unique_event)
    (b : backend context) : backend context :=
  if u.ptr ≠ 0 then hip_event_deleter u.ptr b else b

/-- The class `hip_node_event`; `device_id` is declared outside the header. -/
structure hip_node_event (device_id : Type) where
  _dev : device_id
  _evt : hip_unique_event

/-- Modelled from the spec: the failure an event reports to the async error
collaborator, an exception tagged `event`, carrying the backend's diagnostic
text when there is one. -/
def event_failure {context : Type} : Option String → sycl.exception context
  | none => sycl.exception.of_code (sycl.make_error_code sycl.errc.event)
  | some text => sycl.exception.of_code_string (sycl.make_error_code sycl.errc.event) text

/-- Modelled from the spec: `report(Exception)` of the async error
collaborator, which appends to the accumulated list. -/
def report {context : Type} (o : call_outcome) (b : backend context) : backend context :=
  match o with
  | .ok => b
  | .failed diagnostic => { b with reported := b.reported ++ [event_failure diagnostic] }

namespace hip_node_event

variable {device_id context : Type}

/-- Modelled from the spec: the body of the constructor
`hip_node_event(device_id dev, hip_unique_event evt)`, which takes ownership of
the device identity and of the token: `_evt` is move-constructed from the
parameter `evt`.  Returns the object and the moved-from parameter. -/
def construct (dev : device_id) (evt : hip_unique_event) :
    hip_node_event device_id × hip_unique_event :=
  ({ _dev := dev, _evt := evt.move.1 }, evt.move.2)

/-- The implicitly defined destructor of `hip_node_event`: the members are
destroyed, `_evt` by the destructor of `std::unique_ptr`. -/
def destroy (e : hip_node_event device_id) (b : backend context) : backend context :=
  e._evt.destroy b

/-- Modelled from the spec: the body of `is_complete() const`, a non-blocking
poll.  The result is `true` exactly in state Complete; a query error is
reported to the collaborator and changes neither the result nor the state. -/
def is_complete (e : hip_node_event device_id) (o : call_outcome) (b : backend context) :
    Bool × backend context :=
  (decide (b.status e._evt.ptr = event_status.Complete), report o b)

/-- Modelled from the spec: the body of `wait()`, the backend's blocking
synchronization on this one event.  Without a backend error the call returns
once the backend has confirmed completion, the token then being Complete; a
backend error is reported to the collaborator and does not change the
Pending/Complete status.  The object itself is not changed. -/
def wait (e : hip_node_event device_id) (o : call_outcome) (b : backend context) :
    hip_node_event device_id × backend context :=
  (e, match o with
    | .ok => { b with status := fun t =>
        if t = e._evt.ptr then event_status.Complete else b.status t }
    | .failed diagnostic => report (.failed diagnostic) b)

/-- Modelled from the spec: the body of `get_device() const`, which returns the
identity fixed at construction. -/
def get_device (e : hip_node_event device_id) : device_id := e._dev

end hip_node_event

/-- Modelled from the spec: the device finishes the work recorded at token `t`,
the transition Pending to Complete; a token that is Complete stays so. -/
def device_completes {context : Type} (t : hipEvent_t) (b : backend context) :
    backend context :=
  { b with status := fun u => if u = t then event_status.Complete else b.status u }

/-- One step in the life of an event: a call of one of its three member
functions, with what the backend reports on that call, or progress of the
device on some token. -/
inductive event_step where
  | is_complete (o : call_outcome)
  | wait (o : call_outcome)
  | get_device
  | device_completes (t : hipEvent_t)

/-- What a step lets the caller observe. -/
inductive observation (device_id : Type) where
  | completed (r : Bool)
  | waited
  | device (d : device_id)
  | nothing

/-- Executes one step on an event and the backend. -/
def step {device_id context : Type} (s : hip_node_event device_id × backend context) :
    event_step → observation device_id × (hip_node_event device_id × backend context)
  | .is_complete o => (.completed (s.1.is_complete o s.2).1, (s.1, (s.1.is_complete o s.2).2))
  | .wait o => (.waited, s.1.wait o s.2)
  | .get_device => (.device s.1.get_device, s)
  | .device_completes t => (.nothing, (s.1, device_completes t s.2))

/-- Executes a sequence of steps, collecting the observations in order. -/
def run {device_id context : Type} :
    List event_step → hip_node_event device_id × backend context →
      List (observation device_id) × (hip_node_event device_id × backend context)
  | [], s => ([], s)
  | c :: cs, s => ((step s c).1 :: (run cs (step s c).2).1, (run cs (step s c).2).2)

/-- The results of the `is_complete()` calls among the observations, in order. -/
def completions {device_id : Type} : List (observation device_id) → List Bool
  | [] => []
  | .completed r :: os => r :: completions os
  | _ :: os => completions os

/-- The results of the `get_device()` calls among the observations, in order. -/
def devices {device_id : Type} : List (observation device_id) → List device_id
  | [] => []
  | .device d :: os => d :: devices os
  | _ :: os => devices os

/-- Constructs one event from each pair of a device and a unique event, in
order; the parameter object of each constructor call is destroyed when the call
ends. -/
def construct_all {device_id context : Type} :
    List (device_id × hip_unique_event) → backend context →
      List (hip_node_event device_id) × backend context
  | [], b => ([], b)
  | (d, u) :: rest, b =>
    ((hip_node_event.construct d u).1 ::
        (construct_all rest ((hip_node_event.construct d u).2.destroy b)).1,
      (construct_all rest ((hip_node_event.construct d u).2.destroy b)).2)

/-- Destroys the events of a list, in order. -/
def destroy_all {device_id context : Type} :
    List (hip_node_event device_id) → backend context → backend context
  | [], b => b
  | e :: es, b => destroy_all es (e.destroy b)

end rt


/-! ## Properties of `exception.hpp` -/

namespace sycl

theorem c_string_data (s : String) :
    (c_string s).data = s.data.takeWhile (fun c => c != NUL) := rfl

theorem c_string_eq_self_iff (s : String) : c_string s = s ↔ NUL ∉ s.data := by
  constructor
  · intro h hmem
    have h1 : s.data.takeWhile (fun c => c != NUL) = s.data := by
      rw [← c_string_data, h]
    have h2 := List.takeWhile_eq_self_iff.mp h1 NUL hmem
    simp at h2
  · intro h
    have h1 : s.data.takeWhile (fun c => c != NUL) = s.data := by
      apply List.takeWhile_eq_self_iff.mpr
      intro c hc
      have : c ≠ NUL := fun hcn => h (hcn ▸ hc)
      simpa using this
    show String.mk (s.data.takeWhile (fun c => c != NUL)) = s
    rw [h1]

theorem c_string_idem (s : String) : c_string (c_string s) = c_string s := by
  apply (c_string_eq_self_iff _).mpr
  intro hmem
  rw [c_string_data] at hmem
  have := List.mem_takeWhile_imp hmem
  simp at this

theorem make_error_code_value (e : errc) :
    (make_error_code e).value = (e.underlying : Int) := by
  cases e <;> rfl

theorem underlying_injective (a b : errc) (h : a.underlying = b.underlying) : a = b := by
  cases a <;> cases b <;> first | rfl | (exact absurd h (by decide))

/-- C1: for every code `e` of `errc`, `make_error_code(e)` has as value the
position of `e` in the listed order of the taxonomy (0 for `success` up to 14
for `backend_mismatch`, the list holding all fifteen codes) and as category the
one object that `sycl_category()` returns. -/
theorem make_error_code_position_and_category (e : errc) :
    e ∈ taxonomy ∧ taxonomy.length = 15 ∧
      (make_error_code e).value = ((taxonomy.indexOf e : Nat) : Int) ∧
      taxonomy.map (fun c => (make_error_code c).value) =
        [0, 1, 2, 3, 4, 5, 6, 7, 8, 9, 10, 11, 12, 13, 14] ∧
      (make_error_code e).category = sycl_category ∧
      (make_error_code e).category.same sycl_category = true := by
  refine ⟨?_, rfl, ?_, ?_, rfl, rfl⟩
  · cases e <;> simp [taxonomy]
  · cases e <;> rfl
  · rfl

/-- C2, as stated, fails: an exception built from the `std::string` holding the
three characters `a`, NUL, `b` has a `what()` that is the C string `a`, not the
message passed. -/
theorem what_truncates_at_NUL :
    ¬ (exception.what
        (exception.of_code_string (make_error_code errc.runtime) (String.mk ['a', NUL, 'b']) :
          exception Unit) = String.mk ['a', NUL, 'b']) := by
  decide

/-- C2, amended: an exception built from `(ec, msg)` or `(ev, ecat, msg)` has
`code()` equal to `ec`, respectively to the code of value `ev` and category
`ecat`, for both kinds of overload; `what()` is the C string of the message, that
is the message up to its first NUL.  For the C-string overloads this is the
message passed; for the `std::string` overloads it is `msg` itself exactly when
`msg` holds no NUL. -/
theorem exception_code_and_what {context : Type} (ec : error_code) (ev : Int)
    (ecat : error_category) (msg : String) :
    ((exception.of_code_string ec msg : exception context).code = ec ∧
      (exception.of_code_chars ec msg : exception context).code = ec ∧
      (exception.of_value_string ev ecat msg : exception context).code =
        { value := ev, category := ecat } ∧
      (exception.of_value_chars ev ecat msg : exception context).code =
        { value := ev, category := ecat }) ∧
    ((exception.of_code_string ec msg : exception context).what = c_string msg ∧
      (exception.of_code_chars ec msg : exception context).what = c_string msg ∧
      (exception.of_value_string ev ecat msg : exception context).what = c_string msg ∧
      (exception.of_value_chars ev ecat msg : exception context).what = c_string msg) ∧
    (((exception.of_code_string ec msg : exception context).what = msg ↔ NUL ∉ msg.data) ∧
      ((exception.of_value_string ev ecat msg : exception context).what = msg ↔
        NUL ∉ msg.data)) := by
  refine ⟨⟨rfl, rfl, rfl, rfl⟩, ⟨rfl, ?_, rfl, ?_⟩, ?_, ?_⟩
  · exact c_string_idem msg
  · exact c_string_idem msg
  · exact c_string_eq_self_iff msg
  · exact c_string_eq_self_iff msg

/-- C2, amended, at a message without NUL: the exception built from the code of
`errc::event` and the message `device lost` has that code and that message. -/
theorem exception_code_and_what_witness :
    (exception.of_code_string (make_error_code errc.event) "device lost" :
        exception Unit).code = make_error_code errc.event ∧
      (exception.of_code_string (make_error_code errc.event) "device lost" :
        exception Unit).what = "device lost" :=
  ⟨(exception_code_and_what (make_error_code errc.event) 5 sycl_category "device lost").1.1,
    (exception_code_and_what (make_error_code errc.event) 5 sycl_category
      "device lost").2.2.1.mpr (by decide)⟩

/-- C3, as stated, fails: the exception built from the code of `errc::success`
alone has a `what()` different from the message of the sycl category. -/
theorem what_without_message_is_not_category_message :
    ¬ ((exception.of_code (make_error_code errc.success) : exception Unit).what =
        error_category_message sycl_category (make_error_code errc.success).value) := by
  decide

/-- C3, amended: for every code `e` of the taxonomy, an exception built from the
error code alone, by `exception(make_error_code(e))` or by `exception(ev, ecat)`
with the value of `e` and the sycl category, has the empty string as `what()`;
the fixed message `hipSYCL Error` is what the category of the exception gives
for the value of its code. -/
theorem exception_without_message {context : Type} (e : errc) :
    (exception.of_code (make_error_code e) : exception context).what = "" ∧
      (exception.of_value (static_cast_int e.underlying) sycl_category :
        exception context).what = "" ∧
      error_category_message (exception.of_code (make_error_code e) : exception context).category
        (exception.of_code (make_error_code e) : exception context).code.value =
          "hipSYCL Error" ∧
      error_category_message
        (exception.of_value (static_cast_int e.underlying) sycl_category :
          exception context).category
        (exception.of_value (static_cast_int e.underlying) sycl_category :
          exception context).code.value = "hipSYCL Error" :=
  ⟨rfl, rfl, rfl, rfl⟩

/-- C8: the message of the sycl category is the string `hipSYCL Error` for every
integer value, in particular for the value of each code of the taxonomy, and
the name of the category is `sycl`. -/
theorem sycl_category_message_fixed (n : Int) (e : errc) :
    error_category_message sycl_category n = "hipSYCL Error" ∧
      error_category_message sycl_category (make_error_code e).value = "hipSYCL Error" ∧
      error_category_message (make_error_code e).category (make_error_code e).value =
        "hipSYCL Error" ∧
      error_category_name sycl_category = "sycl" :=
  ⟨rfl, rfl, rfl, rfl⟩

/-- C9: an exception built by the default constructor or by one of the six
constructors without a context argument has no context: `has_context()` is
false, whatever the code, the category and the message. -/
theorem has_context_false {context : Type} (system_category : error_category)
    (ec : error_code) (ev : Int) (ecat : error_category) (msg : String) :
    (exception.default_init system_category : exception context).has_context = false ∧
      (exception.of_code_string ec msg : exception context).has_context = false ∧
      (exception.of_code_chars ec msg : exception context).has_context = false ∧
      (exception.of_code ec : exception context).has_context = false ∧
      (exception.of_value_string ev ecat msg : exception context).has_context = false ∧
      (exception.of_value_chars ev ecat msg : exception context).has_context = false ∧
      (exception.of_value ev ecat : exception context).has_context = false :=
  ⟨rfl, rfl, rfl, rfl, rfl, rfl, rfl⟩

/-- C10: `make_error_code` is injective on `errc`: two codes of the taxonomy
give equal error codes, as values and under `operator==` (same category object
and same value), if and only if they are the same code; hence the `code()` of
an exception built from `make_error_code(a)` is the error code of `a` only. -/
theorem make_error_code_injective {context : Type} (a b : errc) :
    (make_error_code a = make_error_code b ↔ a = b) ∧
      ((make_error_code a).op_eq (make_error_code b) = true ↔ a = b) ∧
      ((exception.of_code (make_error_code a) : exception context).code = make_error_code b ↔
        a = b) := by
  have key : (make_error_code a).value = (make_error_code b).value → a = b := by
    intro h
    rw [make_error_code_value, make_error_code_value] at h
    exact underlying_injective a b (by exact_mod_cast h)
  refine ⟨⟨fun h => key (congrArg error_code.value h), fun h => h ▸ rfl⟩, ⟨?_, ?_⟩,
    ⟨fun h => key (congrArg error_code.value h), fun h => h ▸ rfl⟩⟩
  · intro h
    simp only [error_code.op_eq, Bool.and_eq_true, beq_iff_eq] at h
    exact key h.2
  · intro h
    subst h
    simp [error_code.op_eq, make_error_code, sycl_category, error_category.same]

end sycl

/-! ## Properties of `hip_event.hpp` -/

namespace rt

variable {device_id context : Type}

theorem report_status (o : call_outcome) (b : backend context) :
    (report o b).status = b.status := by
  cases o <;> rfl

theorem step_object (s : hip_node_event device_id × backend context) (c : event_step) :
    (step s c).2.1 = s.1 := by
  cases c <;> rfl

theorem run_object (cs : List event_step) (s : hip_node_event device_id × backend context) :
    (run cs s).2.1 = s.1 := by
  induction cs generalizing s with
  | nil => rfl
  | cons c cs ih =>
    show (run cs (step s c).2).2.1 = s.1
    rw [ih, step_object]

theorem run_devices (cs : List event_step) (s : hip_node_event device_id × backend context) :
    ∀ d ∈ devices (run cs s).1, d = s.1._dev := by
  induction cs generalizing s with
  | nil => intro d hd; simp [run, devices] at hd
  | cons c cs ih =>
    intro d hd
    have ih2 := ih (step s c).2
    rw [step_object] at ih2
    cases c with
    | get_device =>
      simp only [run, step, devices, List.mem_cons] at hd
      rcases hd with hd | hd
      · exact hd
      · exact ih2 d hd
    | is_complete o => exact ih2 d (by simpa [run, step, devices] using hd)
    | wait o => exact ih2 d (by simpa [run, step, devices] using hd)
    | device_completes t => exact ih2 d (by simpa [run, step, devices] using hd)

theorem wait_status_complete (e : hip_node_event device_id) (o : call_outcome)
    (b : backend context) (t : hipEvent_t) (h : b.status t = event_status.Complete) :
    (e.wait o b).2.status t = event_status.Complete := by
  cases o with
  | ok =>
    show (if t = e._evt.ptr then event_status.Complete else b.status t) = _
    split
    · rfl
    · exact h
  | failed diagnostic =>
    show (report (call_outcome.failed diagnostic) b).status t = _
    rw [report_status]; exact h

theorem step_status_complete (s : hip_node_event device_id × backend context) (c : event_step)
    (t : hipEvent_t) (h : s.2.status t = event_status.Complete) :
    (step s c).2.2.status t = event_status.Complete := by
  cases c with
  | is_complete o =>
    show (report o s.2).status t = _
    rw [report_status]; exact h
  | wait o => exact wait_status_complete s.1 o s.2 t h
  | get_device => exact h
  | device_completes u =>
    show (if t = u then event_status.Complete else s.2.status t) = _
    split
    · rfl
    · exact h

theorem run_status_complete (cs : List event_step)
    (s : hip_node_event device_id × backend context) (t : hipEvent_t)
    (h : s.2.status t = event_status.Complete) :
    (run cs s).2.2.status t = event_status.Complete := by
  induction cs generalizing s with
  | nil => exact h
  | cons c cs ih => exact ih (step s c).2 (step_status_complete s c t h)

theorem run_completions_of_complete (cs : List event_step)
    (s : hip_node_event device_id × backend context)
    (h : s.2.status s.1._evt.ptr = event_status.Complete) :
    ∀ r ∈ completions (run cs s).1, r = true := by
  induction cs generalizing s with
  | nil => intro r hr; simp [run, completions] at hr
  | cons c cs ih =>
    intro r hr
    have h2 : (step s c).2.2.status (step s c).2.1._evt.ptr = event_status.Complete := by
      rw [step_object]; exact step_status_complete s c _ h
    have ih2 := ih (step s c).2 h2
    cases c with
    | is_complete o =>
      simp only [run, step, completions, List.mem_cons] at hr
      rcases hr with hr | hr
      · rw [hr]; simp [hip_node_event.is_complete, h]
      · exact ih2 r hr
    | wait o => exact ih2 r (by simpa [run, step, completions] using hr)
    | get_device => exact ih2 r (by simpa [run, step, completions] using hr)
    | device_completes t => exact ih2 r (by simpa [run, step, completions] using hr)

theorem destroy_null (b : backend context) :
    hip_unique_event.destroy { ptr := 0 } b = b := by
  simp [hip_unique_event.destroy]

theorem construct_all_spec (inputs : List (device_id × hip_unique_event))
    (b : backend context) :
    (construct_all inputs b).2 = b ∧
      (construct_all inputs b).1.map (fun e => e._evt.ptr) = inputs.map (fun x => x.2.ptr) ∧
      (construct_all inputs b).1.map (fun e => e._dev) = inputs.map (fun x => x.1) := by
  induction inputs generalizing b with
  | nil => exact ⟨rfl, rfl, rfl⟩
  | cons x rest ih =>
    obtain ⟨d, u⟩ := x
    have hb : (hip_node_event.construct d u).2.destroy b = b := destroy_null b
    simp only [construct_all, hb, List.map_cons]
    exact ⟨(ih b).1, congrArg _ (ih b).2.1, congrArg _ (ih b).2.2⟩

theorem destroy_all_released (es : List (hip_node_event device_id)) (b : backend context)
    (h : ∀ e ∈ es, e._evt.ptr ≠ 0) :
    (destroy_all es b).released = b.released ++ es.map (fun e => e._evt.ptr) ∧
      (destroy_all es b).status = b.status ∧ (destroy_all es b).reported = b.reported := by
  induction es generalizing b with
  | nil => simp [destroy_all]
  | cons e es ih =>
    have he : e._evt.ptr ≠ 0 := h e (List.mem_cons_self _ _)
    have hd : e.destroy b = { b with released := b.released ++ [e._evt.ptr] } := by
      simp [hip_node_event.destroy, hip_unique_event.destroy, he, hip_event_deleter]
    have ih2 := ih (e.destroy b) (fun x hx => h x (List.mem_cons_of_mem _ hx))
    simp only [destroy_all]
    rw [ih2.1, ih2.2.1, ih2.2.2, hd]
    simp

/-- C4: `get_device()` on `hip_node_event(d, t)` returns `d`; after any finite
sequence of `is_complete()`, `wait()` and `get_device()` calls, interleaved with
any progress of the device, the object is the one constructed, `get_device()`
still returns `d`, and every `get_device()` call of the sequence returned `d`. -/
theorem get_device_stable (d : device_id) (t : hip_unique_event) (b : backend context)
    (steps : List event_step) :
    (hip_node_event.construct d t).1.get_device = d ∧
      (run steps ((hip_node_event.construct d t).1, b)).2.1 = (hip_node_event.construct d t).1 ∧
      (run steps ((hip_node_event.construct d t).1, b)).2.1.get_device = d ∧
      ∀ r ∈ devices (run steps ((hip_node_event.construct d t).1, b)).1, r = d := by
  refine ⟨rfl, run_object _ _, ?_, ?_⟩
  · rw [run_object]; rfl
  · exact run_devices steps _

/-- C5: in every sequence of steps on an event, the results of the
`is_complete()` calls never go from true back to false: of two calls, if the
earlier returned true then so did the later.  The state machine has no
transition from Complete to Pending: a token that is Complete before the
sequence is Complete after it. -/
theorem is_complete_monotone (e : hip_node_event device_id) (b : backend context)
    (steps : List event_step) :
    (completions (run steps (e, b)).1).Pairwise (fun earlier later =>
        earlier = true → later = true) ∧
      ∀ t, b.status t = event_status.Complete →
        (run steps (e, b)).2.2.status t = event_status.Complete := by
  refine ⟨?_, fun t h => run_status_complete steps (e, b) t h⟩
  generalize (e, b) = s
  induction steps generalizing s with
  | nil => simp [run, completions]
  | cons c cs ih =>
    have ih2 := ih (step s c).2
    cases c with
    | is_complete o =>
      simp only [run, step, completions, List.pairwise_cons]
      refine ⟨fun r hr h1 => ?_, ih2⟩
      have hc : s.2.status s.1._evt.ptr = event_status.Complete := by
        simpa [hip_node_event.is_complete] using h1
      refine run_completions_of_complete cs _ ?_ r hr
      show (report o s.2).status _ = _
      rw [report_status]; exact hc
    | wait o => simpa [run, step, completions] using ih2
    | get_device => simpa [run, step, completions] using ih2
    | device_completes t => simpa [run, step, completions] using ih2

/-- C5 at a concrete run: an event on token 7, pending at first; the device
completes token 7 between two polls, the event is then waited on and polled
again.  The polls return false, true, true and token 7 stays Complete. -/
theorem is_complete_monotone_witness :
    (completions (run [event_step.is_complete call_outcome.ok, event_step.device_completes 7,
          event_step.is_complete (call_outcome.failed none), event_step.wait call_outcome.ok,
          event_step.is_complete call_outcome.ok]
        ((hip_node_event.construct (0 : Nat) { ptr := 7 }).1,
          ({ status := fun _ => event_status.Pending, reported := [], released := [] } :
            backend Unit))).1).Pairwise (fun earlier later => earlier = true → later = true) ∧
      (run [event_step.wait call_outcome.ok]
        ((hip_node_event.construct (0 : Nat) { ptr := 7 }).1,
          ({ status := fun _ => event_status.Complete, reported := [], released := [] } :
            backend Unit))).2.2.status 7 = event_status.Complete :=
  ⟨(is_complete_monotone _ _ _).1, (is_complete_monotone _ _ _).2 7 rfl⟩

/-- C7: constructing one `hip_node_event` from each of N unique events holding
a non-null token, and destroying the N events in any order, invokes
`hip_event_deleter` exactly N times: the release log grows by the tokens of the
destroyed events, a rearrangement of the wrapped tokens, so every token is
released as often as it was wrapped and, the tokens being pairwise distinct,
each wrapped token exactly once and no other token at all. -/
theorem exclusive_release (inputs : List (device_id × hip_unique_event))
    (b : backend context) (order : List (hip_node_event device_id))
    (hnonnull : ∀ x ∈ inputs, x.2.ptr ≠ 0)
    (horder : order.Perm (construct_all inputs b).1) :
    (destroy_all order (construct_all inputs b).2).released =
        b.released ++ order.map (fun e => e._evt.ptr) ∧
      (order.map (fun e => e._evt.ptr)).Perm (inputs.map (fun x => x.2.ptr)) ∧
      (destroy_all order (construct_all inputs b).2).released.length =
        b.released.length + inputs.length ∧
      (∀ t, (destroy_all order (construct_all inputs b).2).released.count t =
        b.released.count t + (inputs.map (fun x => x.2.ptr)).count t) ∧
      ((inputs.map (fun x => x.2.ptr)).Nodup →
        (∀ t ∈ inputs.map (fun x => x.2.ptr),
          (destroy_all order (construct_all inputs b).2).released.count t =
            b.released.count t + 1) ∧
        (∀ t, t ∉ inputs.map (fun x => x.2.ptr) →
          (destroy_all order (construct_all inputs b).2).released.count t =
            b.released.count t)) := by
  obtain ⟨hb, hptr, -⟩ := construct_all_spec inputs b
  have hperm : (order.map (fun e => e._evt.ptr)).Perm (inputs.map (fun x => x.2.ptr)) := by
    rw [← hptr]; exact horder.map _
  have hne : ∀ e ∈ order, e._evt.ptr ≠ 0 := by
    intro e he
    have h1 : e._evt.ptr ∈ inputs.map (fun x => x.2.ptr) :=
      hperm.subset (List.mem_map_of_mem (fun e => e._evt.ptr) he)
    obtain ⟨x, hx, hxe⟩ := List.mem_map.mp h1
    rw [← hxe]; exact hnonnull x hx
  have hrel := (destroy_all_released order (construct_all inputs b).2 hne).1
  rw [hb] at hrel ⊢
  have hcount : ∀ t, (destroy_all order b).released.count t =
      b.released.count t + (inputs.map (fun x => x.2.ptr)).count t := by
    intro t
    rw [hrel, List.count_append, hperm.count_eq]
  refine ⟨hrel, hperm, ?_, hcount, fun hnd => ⟨fun t ht => ?_, fun t ht => ?_⟩⟩
  · rw [hrel, List.length_append, hperm.length_eq, List.length_map]
  · rw [hcount, List.count_eq_one_of_mem hnd ht]
  · rw [hcount, List.count_eq_zero_of_not_mem ht, Nat.add_zero]

/-- C7 at three events: tokens 11, 12 and 13 are wrapped on devices 0, 1 and 0
and the events destroyed in the order third, first, second; the release
primitive runs three times, once on each token. -/
theorem exclusive_release_witness :
    (destroy_all
        [(hip_node_event.construct (0 : Nat) { ptr := 13 }).1,
          (hip_node_event.construct (0 : Nat) { ptr := 11 }).1,
          (hip_node_event.construct (1 : Nat) { ptr := 12 }).1]
        (construct_all [((0 : Nat), { ptr := 11 }), (1, { ptr := 12 }), (0, { ptr := 13 })]
          ({ status := fun _ => event_status.Pending, reported := [], released := [] } :
            backend Unit)).2).released = [13, 11, 12] :=
  (exclusive_release [((0 : Nat), { ptr := 11 }), (1, { ptr := 12 }), (0, { ptr := 13 })]
    ({ status := fun _ => event_status.Pending, reported := [], released := [] } : backend Unit)
    [(hip_node_event.construct (0 : Nat) { ptr := 13 }).1,
      (hip_node_event.construct (0 : Nat) { ptr := 11 }).1,
      (hip_node_event.construct (1 : Nat) { ptr := 12 }).1]
    (by decide)
    ((List.Perm.swap _ _ _).trans (List.Perm.cons _ (List.Perm.swap _ _ _)))).1

end rt

end hipsycl
